import Mathlib

/-!
Shallow embedding of `cmd/config.go` from jessesomerville/gcp-iam-escalate:
the `config` command family (`print`, `set`) of the configuration facade.

The process-wide state visible to these commands is the viper key/value
store, its backing file, and the shared logrus logger handle.  File I/O is
embedded by passing the environment's answer (file contents for reads, an
optional error for writes) as an explicit parameter.
-/

namespace ConfigCmd

/-- A value held in the viper store: `viper.Set` is called with either a
string (the literal argument) or a Go `bool` (the coerced value for keys in
`BoolConfigFields`). -/
inductive Value where
  | vstr (s : String)
  | vbool (b : Bool)
deriving DecidableEq, Repr

/-- The logrus logging levels (`logrus.AllLevels`). -/
inductive LogLevel where
  | panic
  | fatal
  | error
  | warn
  | info
  | debug
  | trace
deriving DecidableEq, Repr

/-- Modelled from the spec: the three formatter variants installed on the
Logger Handle by `util.NewRuntimeFormatter`, `util.NewJSONFormatter` and
`util.NewTextFormatter` (internal/eiamutil, not under src/). -/
inductive Formatter where
  | runtime
  | json
  | text
deriving DecidableEq, Repr

/-- Modelled from the spec: the Logger Handle (`util.Logger`), the shared
mutable active logging level and output formatter. -/
structure Logger where
  level : LogLevel
  formatter : Formatter
deriving DecidableEq, Repr

/-- The process-wide state the `config` commands read and mutate: the
in-memory viper store, the contents of its backing file, and the Logger
Handle. -/
structure State where
  store : List (String × Value)
  file : List (String × Value)
  logger : Logger
deriving DecidableEq, Repr

/-- Modelled from the spec: `errorsutil.EiamError` (internal/errors, not
under src/), a human-readable message plus the underlying cause (rendered as
a string). -/
structure EiamError where
  msg : String
  err : String
deriving DecidableEq, Repr

/-- `LoggingLevels` from `cmd/config.go`. -/
def LoggingLevels : List String :=
  ["trace", "debug", "info", "warn", "error", "fatal", "panic"]

/-- `LoggingFormats` from `cmd/config.go`. -/
def LoggingFormats : List String :=
  ["text", "json", "debug"]

/-- `BoolConfigFields` from `cmd/config.go`. -/
def BoolConfigFields : List String :=
  ["authproxy.verbose", "logging.disableleveltruncation", "logging.padleveltext"]

/-- Modelled from the spec: `util.Contains` (internal/eiamutil, not under
src/), membership of a string in a slice of strings. -/
def Contains (l : List String) (s : String) : Bool :=
  l.contains s

/-- Go's `strconv.ParseBool`: accepts exactly `1,t,T,TRUE,true,True` for
true and `0,f,F,FALSE,false,False` for false. -/
def strconvParseBool (s : String) : Option Bool :=
  if s = "1" ∨ s = "t" ∨ s = "T" ∨ s = "TRUE" ∨ s = "true" ∨ s = "True" then
    some true
  else if s = "0" ∨ s = "f" ∨ s = "F" ∨ s = "FALSE" ∨ s = "false" ∨ s = "False" then
    some false
  else
    none

/-- ASCII lowercasing of one character (the level names logrus compares
against are all ASCII). -/
def asciiLowerChar (c : Char) : Char :=
  if 'A' ≤ c ∧ c ≤ 'Z' then Char.ofNat (c.toNat + 32) else c

/-- ASCII lowercasing of a string, character by character. -/
def asciiLower (s : String) : String :=
  ⟨s.data.map asciiLowerChar⟩

/-- logrus's `ParseLevel`: case-insensitive match of the level name
(`warning` is an accepted alias of `warn`). -/
def logrusParseLevel (s : String) : Option LogLevel :=
  if asciiLower s = "panic" then some .panic
  else if asciiLower s = "fatal" then some .fatal
  else if asciiLower s = "error" then some .error
  else if asciiLower s = "warn" ∨ asciiLower s = "warning" then some .warn
  else if asciiLower s = "info" then some .info
  else if asciiLower s = "debug" then some .debug
  else if asciiLower s = "trace" then some .trace
  else none

/-- `viper.Get`: look up a key in the store (first match; `none` models a
Go `nil`). -/
def getVal : List (String × Value) → String → Option Value
  | [], _ => none
  | p :: ps, k => if p.1 = k then some p.2 else getVal ps k

/-- `viper.Set`: overwrite the key's entry, appending it when absent. -/
def setVal : List (String × Value) → String → Value → List (String × Value)
  | [], k, v => [(k, v)]
  | p :: ps, k, v => if p.1 = k then (k, v) :: ps else p :: setVal ps k v

/-- `viper.AllKeys()`: the keys present in the store (the Key Registry of
this process). -/
def allKeys (st : State) : List String :=
  st.store.map Prod.fst

/-- The Go comparison `oldVal == args[1]` where `oldVal` is an
`interface{}` read from the store and `args[1]` is a string: true only when
the stored dynamic type is `string` and equal.  A stored `bool` or a `nil`
never equals a string. -/
def goEqStr : Option Value → String → Bool
  | some (.vstr s), t => s = t
  | _, _ => false

/-- The `Args` validator of `newCmdConfigSet`: arity, key registry,
`logging.level` enum, `logging.format` enum, boolean literal. -/
def configSetArgs (st : State) (args : List String) : Except EiamError Unit :=
  if args.length ≠ 2 then
    .error ⟨"Invalid command arguments", "requires both a config key and a new value"⟩
  else
    let key := args.headD ""
    let value := (args.drop 1).headD ""
    if ¬ Contains (allKeys st) key then
      .error ⟨"Invalid command arguments", "invalid config key " ++ key⟩
    else if key = "logging.level" then
      if ¬ Contains LoggingLevels value then
        .error ⟨"Invalid command arguments",
          "logging level must be one of [trace debug info warn error fatal panic]"⟩
      else
        .ok ()
    else if key = "logging.format" then
      if ¬ Contains LoggingFormats value then
        .error ⟨"Invalid command arguments",
          "logging format must be one of [text json debug]"⟩
      else
        .ok ()
    else if Contains BoolConfigFields key then
      match strconvParseBool value with
      | none =>
          .error ⟨"Invalid command arguments",
            "the " ++ key ++ " value must be either true or false"⟩
      | some _ => .ok ()
    else
      .ok ()

instance (ε α : Type) [DecidableEq ε] [DecidableEq α] : DecidableEq (Except ε α) := fun a b =>
  match a, b with
  | .ok x, .ok y =>
      if h : x = y then isTrue (by rw [h]) else isFalse (by intro hc; cases hc; exact h rfl)
  | .error x, .error y =>
      if h : x = y then isTrue (by rw [h]) else isFalse (by intro hc; cases hc; exact h rfl)
  | .ok _, .error _ => isFalse (by intro hc; cases hc)
  | .error _, .ok _ => isFalse (by intro hc; cases hc)

/-- The observable outcome of one `set` invocation: the returned error (if
any), the final state, whether `viper.WriteConfig` was invoked, and whether
the no-op warning was emitted. -/
structure RunOut where
  res : Except EiamError Unit
  st : State
  wrote : Bool
  warned : Bool
deriving DecidableEq, Repr

/-- `viper.WriteConfig()`: persist the store to the backing file.  The
environment's answer is `writeErr`: `none` means the write succeeds and the
file now holds the store; `some e` means it fails with cause `e` and the
file is unchanged. -/
def writeConfig (writeErr : Option String) (st : State) : RunOut :=
  match writeErr with
  | some e =>
      ⟨.error ⟨"Failed to write updated configuration", e⟩, st, true, false⟩
  | none =>
      ⟨.ok (), { st with file := st.store }, true, false⟩

/-- The `RunE` body of `newCmdConfigSet`: no-op short-circuit, bool
coercion, store mutation, logger synchronization, persistence. -/
def configSetRunE (writeErr : Option String) (st : State) (key value : String) : RunOut :=
  let oldVal := getVal st.store key
  if goEqStr oldVal value then
    ⟨.ok (), st, false, true⟩
  else
    let st1 :=
      if Contains BoolConfigFields key then
        { st with store := setVal st.store key (.vbool ((strconvParseBool value).getD false)) }
      else
        { st with store := setVal st.store key (.vstr value) }
    if key = "logging.level" then
      match logrusParseLevel value with
      | none =>
          ⟨.error ⟨"Invalid command arguments", "not a valid logrus Level: " ++ value⟩,
            st1, false, false⟩
      | some lvl =>
          writeConfig writeErr { st1 with logger := { st1.logger with level := lvl } }
    else if key = "logging.format" then
      let fmtr : Formatter :=
        if value = "debug" then .runtime
        else if value = "json" then .json
        else .text
      writeConfig writeErr { st1 with logger := { st1.logger with formatter := fmtr } }
    else
      writeConfig writeErr st1

/-- One invocation of `config set`: cobra runs the `Args` validator first
and only on success the `RunE` body. -/
def configSet (writeErr : Option String) (st : State) (args : List String) : RunOut :=
  match configSetArgs st args with
  | .error e => ⟨.error e, st, false, false⟩
  | .ok _ =>
      configSetRunE writeErr st (args.headD "") ((args.drop 1).headD "")

/-- One invocation of `config print`: `fileData` is the environment's
answer to `ioutil.ReadFile` on the backing file (`.ok` contents or `.error`
cause).  Returns what is emitted to stdout and the (unchanged) state. -/
def configPrint (fileData : Except String String) (st : State) :
    Except EiamError String × State :=
  match fileData with
  | .error e =>
      (.error ⟨"Failed to read configuration file", e⟩, st)
  | .ok d =>
      (.ok ("\n" ++ d ++ "\n"), st)

/-- A sample state with a coerced boolean stored under a boolean-typed key. -/
def boolState : State :=
  ⟨[("authproxy.verbose", .vbool true)], [("authproxy.verbose", .vbool true)], ⟨.info, .text⟩⟩

/-- A sample state whose Logger Handle is synchronized with the store. -/
def loggingState : State :=
  ⟨[("logging.level", .vstr "info"), ("logging.format", .vstr "text")],
    [("logging.level", .vstr "info"), ("logging.format", .vstr "text")], ⟨.info, .text⟩⟩

/-- A sample state for `print` witnesses. -/
def printState : State := ⟨[], [], ⟨.info, .text⟩⟩

/-- A state whose Logger Handle is stale with respect to the store: the store
says `logging.level` is `"debug"` but the Logger Handle is still at `info`. -/
def staleLoggerState : State :=
  ⟨[("logging.level", .vstr "debug"), ("logging.format", .vstr "json")],
    [("logging.level", .vstr "debug"), ("logging.format", .vstr "json")], ⟨.info, .text⟩⟩

theorem contains_iff (l : List String) (s : String) : Contains l s = true ↔ s ∈ l := by
  simp [Contains]

theorem getVal_setVal (s : List (String × Value)) (k : String) (v : Value) :
    getVal (setVal s k v) k = some v := by
  induction s with
  | nil => simp [setVal, getVal]
  | cons p ps ih =>
      by_cases h : p.1 = k
      · simp [setVal, getVal, h]
      · simp [setVal, getVal, h, ih]

theorem configSetArgs_ok_iff (st : State) (key value : String) :
    configSetArgs st [key, value] = .ok () ↔
      (key ∈ allKeys st
        ∧ (key = "logging.level" → value ∈ LoggingLevels)
        ∧ (key = "logging.format" → value ∈ LoggingFormats)
        ∧ (key ∈ BoolConfigFields → (strconvParseBool value).isSome)) := by
  simp only [configSetArgs, List.length_cons, List.length_nil]
  norm_num
  rcases hpb : strconvParseBool value with _ | b <;>
    simp only [hpb] <;>
    split_ifs <;>
    simp_all [Contains, LoggingLevels, LoggingFormats, BoolConfigFields] <;>
    tauto

theorem configSetArgs_error_msg (st : State) (args : List String) (e : EiamError)
    (h : configSetArgs st args = .error e) : e.msg = "Invalid command arguments" := by
  simp only [configSetArgs] at h
  split_ifs at h <;>
    first
      | (cases h; rfl)
      | (revert h; split <;> intro h <;> first | (cases h; rfl) | (cases h))

theorem configSetArgs_ok_shape (st : State) (args : List String)
    (h : configSetArgs st args = .ok ()) : ∃ a b, args = [a, b] := by
  have hlen : args.length = 2 := by
    by_contra hne
    simp [configSetArgs, hne] at h
  match args, hlen with
  | [a, b], _ => exact ⟨a, b, rfl⟩

theorem configSet_of_args_error (writeErr : Option String) (st : State) (args : List String)
    (e : EiamError) (h : configSetArgs st args = .error e) :
    configSet writeErr st args = ⟨.error e, st, false, false⟩ := by
  simp [configSet, h]

theorem configSet_of_args_ok (writeErr : Option String) (st : State) (args : List String)
    (h : configSetArgs st args = .ok ()) :
    configSet writeErr st args
      = configSetRunE writeErr st (args.headD "") ((args.drop 1).headD "") := by
  simp [configSet, h]

theorem runE_noop (writeErr : Option String) (st : State) (key value : String)
    (h : goEqStr (getVal st.store key) value = true) :
    configSetRunE writeErr st key value = ⟨.ok (), st, false, true⟩ := by
  simp [configSetRunE, h]

theorem runE_bool (writeErr : Option String) (st : State) (key value : String)
    (hno : goEqStr (getVal st.store key) value = false) (hb : key ∈ BoolConfigFields) :
    configSetRunE writeErr st key value =
      writeConfig writeErr
        { st with store := setVal st.store key (.vbool ((strconvParseBool value).getD false)) } := by
  have h1 : key ≠ "logging.level" := by rintro rfl; simp [BoolConfigFields] at hb
  have h2 : key ≠ "logging.format" := by rintro rfl; simp [BoolConfigFields] at hb
  have h3 : Contains BoolConfigFields key = true := (contains_iff _ _).mpr hb
  simp [configSetRunE, hno, h1, h2, h3]

theorem runE_level (writeErr : Option String) (st : State) (value : String) (lvl : LogLevel)
    (hno : goEqStr (getVal st.store "logging.level") value = false)
    (hlvl : logrusParseLevel value = some lvl) :
    configSetRunE writeErr st "logging.level" value =
      writeConfig writeErr
        { st with store := setVal st.store "logging.level" (.vstr value),
                  logger := { st.logger with level := lvl } } := by
  simp [configSetRunE, hno, hlvl, Contains, BoolConfigFields]

theorem runE_format (writeErr : Option String) (st : State) (value : String)
    (hno : goEqStr (getVal st.store "logging.format") value = false) :
    configSetRunE writeErr st "logging.format" value =
      writeConfig writeErr
        { st with store := setVal st.store "logging.format" (.vstr value),
                  logger := { st.logger with formatter :=
                    if value = "debug" then .runtime
                    else if value = "json" then .json
                    else .text } } := by
  simp [configSetRunE, hno, Contains, BoolConfigFields]

theorem runE_plain (writeErr : Option String) (st : State) (key value : String)
    (hno : goEqStr (getVal st.store key) value = false)
    (h1 : key ≠ "logging.level") (h2 : key ≠ "logging.format") (h3 : key ∉ BoolConfigFields) :
    configSetRunE writeErr st key value =
      writeConfig writeErr { st with store := setVal st.store key (.vstr value) } := by
  have h3' : Contains BoolConfigFields key = false := by
    simp [Contains, h3]
  simp [configSetRunE, hno, h1, h2, h3']

theorem parseLevel_of_mem (v : String) (hv : v ∈ LoggingLevels) :
    ∃ lvl, logrusParseLevel v = some lvl := by
  simp only [LoggingLevels, List.mem_cons, List.not_mem_nil, or_false] at hv
  rcases hv with rfl | rfl | rfl | rfl | rfl | rfl | rfl
  · exact ⟨.trace, by decide⟩
  · exact ⟨.debug, by decide⟩
  · exact ⟨.info, by decide⟩
  · exact ⟨.warn, by decide⟩
  · exact ⟨.error, by decide⟩
  · exact ⟨.fatal, by decide⟩
  · exact ⟨.panic, by decide⟩

theorem writeConfig_error_msg (writeErr : Option String) (st : State) (e : EiamError)
    (h : (writeConfig writeErr st).res = .error e) :
    e.msg = "Failed to write updated configuration" := by
  cases writeErr with
  | none => simp [writeConfig] at h
  | some w =>
      simp only [writeConfig] at h
      cases h
      rfl

/-- C1: `set` validation fails with InvalidArguments exactly when the arity is
not two, or the key is outside the Key Registry, or `logging.level` gets a
value outside its enum, or `logging.format` gets a value outside its enum, or
a boolean-typed key gets a value that does not parse as a boolean literal;
all other keys accept every value. -/
theorem set_validation_fails_iff (st : State) :
    (∀ args : List String, args.length ≠ 2 →
      ∃ e, configSetArgs st args = .error e ∧ e.msg = "Invalid command arguments")
    ∧ ∀ key value : String,
      (∃ e, configSetArgs st [key, value] = .error e ∧ e.msg = "Invalid command arguments")
        ↔ (key ∉ allKeys st
            ∨ (key = "logging.level" ∧ value ∉ LoggingLevels)
            ∨ (key = "logging.format" ∧ value ∉ LoggingFormats)
            ∨ (key ∈ BoolConfigFields ∧ strconvParseBool value = none)) := by
  constructor
  · intro args h
    exact ⟨⟨"Invalid command arguments", "requires both a config key and a new value"⟩,
      by simp [configSetArgs, h], rfl⟩
  · intro key value
    constructor
    · rintro ⟨e, he, -⟩
      by_contra hcon
      push_neg at hcon
      obtain ⟨h1, h2, h3, h4⟩ := hcon
      have hok : configSetArgs st [key, value] = .ok () := by
        rw [configSetArgs_ok_iff]
        exact ⟨h1, h2, h3, fun hb => Option.ne_none_iff_isSome.mp (h4 hb)⟩
      rw [hok] at he
      cases he
    · intro hdis
      cases hcs : configSetArgs st [key, value] with
      | error e => exact ⟨e, rfl, configSetArgs_error_msg st _ e hcs⟩
      | ok u =>
          exfalso
          cases u
          rw [configSetArgs_ok_iff] at hcs
          obtain ⟨h1, h2, h3, h4⟩ := hcs
          rcases hdis with h | ⟨hk, hv⟩ | ⟨hk, hv⟩ | ⟨hk, hv⟩
          · exact h h1
          · exact hv (h2 hk)
          · exact hv (h3 hk)
          · rw [hv] at h4
            exact Bool.noConfusion (h4 hk)

theorem set_validation_fails_iff_witness :
    ∃ e, configSetArgs
        ⟨[("logging.level", .vstr "info")], [("logging.level", .vstr "info")], ⟨.info, .text⟩⟩
        ["nonexistent.key", "x"] = .error e ∧ e.msg = "Invalid command arguments" :=
  ((set_validation_fails_iff _).2 "nonexistent.key" "x").mpr (Or.inl (by decide))

/-- C2: whenever a `set` invocation fails with InvalidArguments, the failure
is reported before any mutation: the store, the backing file and the Logger
Handle are unchanged and no write to the backing file was attempted. -/
theorem set_invalid_args_unchanged (writeErr : Option String) (st : State) (args : List String)
    (e : EiamError) (h : (configSet writeErr st args).res = .error e)
    (hm : e.msg = "Invalid command arguments") :
    (configSet writeErr st args).st = st ∧ (configSet writeErr st args).wrote = false := by
  cases hargs : configSetArgs st args with
  | error e' => rw [configSet_of_args_error _ _ _ _ hargs]; exact ⟨rfl, rfl⟩
  | ok u =>
      exfalso
      cases u
      obtain ⟨a, b, rfl⟩ := configSetArgs_ok_shape st args hargs
      rw [configSet_of_args_ok _ _ _ hargs] at h
      simp only [List.headD, List.drop] at h
      rw [configSetArgs_ok_iff] at hargs
      obtain ⟨h1, h2, h3, h4⟩ := hargs
      by_cases hno : goEqStr (getVal st.store a) b = true
      · rw [runE_noop _ _ _ _ hno] at h
        cases h
      · rw [Bool.not_eq_true] at hno
        by_cases ha1 : a = "logging.level"
        · subst ha1
          obtain ⟨lvl, hlvl⟩ := parseLevel_of_mem b (h2 rfl)
          rw [runE_level _ _ _ lvl hno hlvl] at h
          have := writeConfig_error_msg _ _ _ h
          rw [hm] at this
          exact absurd this (by decide)
        · by_cases ha2 : a = "logging.format"
          · subst ha2
            rw [runE_format _ _ _ hno] at h
            have := writeConfig_error_msg _ _ _ h
            rw [hm] at this
            exact absurd this (by decide)
          · by_cases hb : a ∈ BoolConfigFields
            · rw [runE_bool _ _ _ _ hno hb] at h
              have := writeConfig_error_msg _ _ _ h
              rw [hm] at this
              exact absurd this (by decide)
            · rw [runE_plain _ _ _ _ hno ha1 ha2 hb] at h
              have := writeConfig_error_msg _ _ _ h
              rw [hm] at this
              exact absurd this (by decide)

theorem set_invalid_args_unchanged_witness :
    (configSet none
      ⟨[("logging.level", .vstr "info")], [("logging.level", .vstr "info")], ⟨.info, .text⟩⟩
      ["logging.level", "bogus"]).st
      = ⟨[("logging.level", .vstr "info")], [("logging.level", .vstr "info")], ⟨.info, .text⟩⟩
    ∧ (configSet none
      ⟨[("logging.level", .vstr "info")], [("logging.level", .vstr "info")], ⟨.info, .text⟩⟩
      ["logging.level", "bogus"]).wrote = false :=
  set_invalid_args_unchanged none _ _
    ⟨"Invalid command arguments",
      "logging level must be one of [trace debug info warn error fatal panic]"⟩
    (by decide) rfl

/-- C3 counterexample: for the boolean-typed key `authproxy.verbose` whose
stored value is the coerced boolean `true`, calling `set` with `"true"` — the
string form of the stored value — does not take the no-op short-circuit: the
no-op warning is not emitted and `viper.WriteConfig` is invoked, because the
Go comparison `oldVal == args[1]` compares a `bool` against a `string`. -/
theorem set_idempotence_cex :
    (configSet none boolState ["authproxy.verbose", "true"]).wrote = true
    ∧ (configSet none boolState ["authproxy.verbose", "true"]).warned = false
    ∧ (configSet (some "disk full") boolState ["authproxy.verbose", "true"]).res
        = .error ⟨"Failed to write updated configuration", "disk full"⟩ :=
  ⟨by decide, by decide, by decide⟩

/-- C3 (amended): for every key whose stored value is the string `v` itself
(and whose validation accepts `v`), `set(key, v)` performs no write to the
backing file, emits the no-op warning and returns success, leaving store,
backing file and Logger Handle unchanged.  Boolean-typed keys whose stored
value is a coerced boolean do not take this path. -/
theorem set_idempotent_on_string_values (writeErr : Option String) (st : State)
    (key v : String) (hv : getVal st.store key = some (.vstr v))
    (hval : configSetArgs st [key, v] = .ok ()) :
    configSet writeErr st [key, v] = ⟨.ok (), st, false, true⟩ := by
  rw [configSet_of_args_ok _ _ _ hval]
  simp only [List.headD, List.drop]
  apply runE_noop
  simp [goEqStr, hv]

theorem set_idempotent_on_string_values_witness :
    configSet none
        ⟨[("authproxy.certfile", .vstr "/tmp/cert")], [("authproxy.certfile", .vstr "/tmp/cert")],
          ⟨.info, .text⟩⟩
        ["authproxy.certfile", "/tmp/cert"]
      = ⟨.ok (),
          ⟨[("authproxy.certfile", .vstr "/tmp/cert")], [("authproxy.certfile", .vstr "/tmp/cert")],
            ⟨.info, .text⟩⟩, false, true⟩ :=
  set_idempotent_on_string_values none _ "authproxy.certfile" "/tmp/cert" (by decide) (by decide)

/-- C4: for every boolean-typed key, `set` (with a writable backing file)
succeeds iff the value parses as a Go boolean literal, and on a successful
non-no-op `set` the stored value is the coerced boolean; for every other key
that passes validation, a non-no-op `set` stores the literal string. -/
theorem set_bool_coercion (st : State) (key v : String) (hk : key ∈ allKeys st) :
    (key ∈ BoolConfigFields →
      (((configSet none st [key, v]).res = .ok ()) ↔ (strconvParseBool v).isSome = true)
      ∧ ∀ b, strconvParseBool v = some b →
          (configSet none st [key, v]).wrote = true →
            getVal (configSet none st [key, v]).st.store key = some (.vbool b))
    ∧ (key ∉ BoolConfigFields → configSetArgs st [key, v] = .ok () →
        (configSet none st [key, v]).wrote = true →
          getVal (configSet none st [key, v]).st.store key = some (.vstr v)) := by
  constructor
  · intro hb
    have ha1 : key ≠ "logging.level" := by rintro rfl; simp [BoolConfigFields] at hb
    have ha2 : key ≠ "logging.format" := by rintro rfl; simp [BoolConfigFields] at hb
    have hok : (strconvParseBool v).isSome = true → configSetArgs st [key, v] = .ok () := by
      intro hsome
      rw [configSetArgs_ok_iff]
      exact ⟨hk, fun h => absurd h ha1, fun h => absurd h ha2, fun _ => hsome⟩
    constructor
    · cases hpb : strconvParseBool v with
      | none =>
          have herr : ∃ e, configSetArgs st [key, v] = .error e := by
            cases hcs : configSetArgs st [key, v] with
            | ok u =>
                cases u
                rw [configSetArgs_ok_iff] at hcs
                have := hcs.2.2.2 hb
                rw [hpb] at this
                cases this
            | error e => exact ⟨e, rfl⟩
          obtain ⟨e, he⟩ := herr
          rw [configSet_of_args_error _ _ _ _ he]
          simp
      | some b =>
          rw [configSet_of_args_ok _ _ _ (hok (by rw [hpb]; rfl))]
          simp only [List.headD, List.drop]
          by_cases hno : goEqStr (getVal st.store key) v = true
          · rw [runE_noop _ _ _ _ hno]
            simp
          · rw [Bool.not_eq_true] at hno
            rw [runE_bool _ _ _ _ hno hb]
            simp [writeConfig]
    · intro b hpb hw
      have hok' : configSetArgs st [key, v] = .ok () := hok (by rw [hpb]; rfl)
      rw [configSet_of_args_ok _ _ _ hok'] at hw ⊢
      simp only [List.headD, List.drop] at hw ⊢
      by_cases hno : goEqStr (getVal st.store key) v = true
      · rw [runE_noop _ _ _ _ hno] at hw
        cases hw
      · rw [Bool.not_eq_true] at hno
        rw [runE_bool _ _ _ _ hno hb]
        simp [writeConfig, getVal_setVal, hpb]
  · intro hnb hok hw
    rw [configSet_of_args_ok _ _ _ hok] at hw ⊢
    simp only [List.headD, List.drop] at hw ⊢
    rw [configSetArgs_ok_iff] at hok
    by_cases hno : goEqStr (getVal st.store key) v = true
    · rw [runE_noop _ _ _ _ hno] at hw
      cases hw
    · rw [Bool.not_eq_true] at hno
      by_cases ha1 : key = "logging.level"
      · subst ha1
        obtain ⟨lvl, hlvl⟩ := parseLevel_of_mem v (hok.2.1 rfl)
        rw [runE_level _ _ _ lvl hno hlvl]
        simp [writeConfig, getVal_setVal]
      · by_cases ha2 : key = "logging.format"
        · subst ha2
          rw [runE_format _ _ _ hno]
          simp [writeConfig, getVal_setVal]
        · rw [runE_plain _ _ _ _ hno ha1 ha2 hnb]
          simp [writeConfig, getVal_setVal]

theorem set_bool_coercion_witness :
    getVal (configSet none boolState ["authproxy.verbose", "false"]).st.store
        "authproxy.verbose" = some (.vbool false) :=
  ((set_bool_coercion boolState "authproxy.verbose" "false" (by decide)).1
    (by decide)).2 false (by decide) (by decide)

/-- C5: with a writable backing file, `set("logging.level", v)` succeeds iff
`v` is one of the seven logging levels, and on every non-no-op `set` that
reaches persistence the Logger Handle's active level equals the parsed
value. -/
theorem set_logging_level_spec (st : State) (v : String)
    (hk : "logging.level" ∈ allKeys st) :
    (((configSet none st ["logging.level", v]).res = .ok ()) ↔ v ∈ LoggingLevels)
    ∧ ∀ lvl, logrusParseLevel v = some lvl →
        (configSet none st ["logging.level", v]).wrote = true →
          (configSet none st ["logging.level", v]).st.logger.level = lvl := by
  have hok : v ∈ LoggingLevels → configSetArgs st ["logging.level", v] = .ok () := by
    intro hv
    rw [configSetArgs_ok_iff]
    exact ⟨hk, fun _ => hv, fun h => absurd h (by decide), fun h => absurd h (by decide)⟩
  constructor
  · by_cases hv : v ∈ LoggingLevels
    · rw [configSet_of_args_ok _ _ _ (hok hv)]
      simp only [List.headD, List.drop]
      by_cases hno : goEqStr (getVal st.store "logging.level") v = true
      · rw [runE_noop _ _ _ _ hno]
        simp [hv]
      · rw [Bool.not_eq_true] at hno
        obtain ⟨lvl, hlvl⟩ := parseLevel_of_mem v hv
        rw [runE_level _ _ _ lvl hno hlvl]
        simp [writeConfig, hv]
    · have herr : ∃ e, configSetArgs st ["logging.level", v] = .error e := by
        cases hcs : configSetArgs st ["logging.level", v] with
        | ok u =>
            cases u
            rw [configSetArgs_ok_iff] at hcs
            exact absurd (hcs.2.1 rfl) hv
        | error e => exact ⟨e, rfl⟩
      obtain ⟨e, he⟩ := herr
      rw [configSet_of_args_error _ _ _ _ he]
      simp [hv]
  · intro lvl hlvl hw
    have hv : v ∈ LoggingLevels := by
      by_contra hv
      have herr : ∃ e, configSetArgs st ["logging.level", v] = .error e := by
        cases hcs : configSetArgs st ["logging.level", v] with
        | ok u =>
            cases u
            rw [configSetArgs_ok_iff] at hcs
            exact absurd (hcs.2.1 rfl) hv
        | error e => exact ⟨e, rfl⟩
      obtain ⟨e, he⟩ := herr
      rw [configSet_of_args_error _ _ _ _ he] at hw
      cases hw
    rw [configSet_of_args_ok _ _ _ (hok hv)] at hw ⊢
    simp only [List.headD, List.drop] at hw ⊢
    by_cases hno : goEqStr (getVal st.store "logging.level") v = true
    · rw [runE_noop _ _ _ _ hno] at hw
      cases hw
    · rw [Bool.not_eq_true] at hno
      rw [runE_level _ _ _ lvl hno hlvl]
      simp [writeConfig]

theorem set_logging_level_spec_witness :
    (configSet none loggingState ["logging.level", "debug"]).st.logger.level
      = LogLevel.debug :=
  (set_logging_level_spec loggingState "debug" (by decide)).2 .debug (by decide) (by decide)

/-- C6: with a writable backing file, `set("logging.format", v)` succeeds iff
`v` is one of text, json, debug, and on every non-no-op `set` that reaches
persistence the formatter installed on the Logger Handle is the runtime
formatter for "debug", the JSON formatter for "json" and the text formatter
for any other value. -/
theorem set_logging_format_spec (st : State) (v : String)
    (hk : "logging.format" ∈ allKeys st) :
    (((configSet none st ["logging.format", v]).res = .ok ()) ↔ v ∈ LoggingFormats)
    ∧ ((configSet none st ["logging.format", v]).wrote = true →
        (configSet none st ["logging.format", v]).st.logger.formatter =
          (if v = "debug" then .runtime else if v = "json" then .json else .text)) := by
  have hok : v ∈ LoggingFormats → configSetArgs st ["logging.format", v] = .ok () := by
    intro hv
    rw [configSetArgs_ok_iff]
    exact ⟨hk, fun h => absurd h (by decide), fun _ => hv, fun h => absurd h (by decide)⟩
  have herr : v ∉ LoggingFormats → ∃ e, configSetArgs st ["logging.format", v] = .error e := by
    intro hv
    cases hcs : configSetArgs st ["logging.format", v] with
    | ok u =>
        cases u
        rw [configSetArgs_ok_iff] at hcs
        exact absurd (hcs.2.2.1 rfl) hv
    | error e => exact ⟨e, rfl⟩
  constructor
  · by_cases hv : v ∈ LoggingFormats
    · rw [configSet_of_args_ok _ _ _ (hok hv)]
      simp only [List.headD, List.drop]
      by_cases hno : goEqStr (getVal st.store "logging.format") v = true
      · rw [runE_noop _ _ _ _ hno]
        simp [hv]
      · rw [Bool.not_eq_true] at hno
        rw [runE_format _ _ _ hno]
        simp [writeConfig, hv]
    · obtain ⟨e, he⟩ := herr hv
      rw [configSet_of_args_error _ _ _ _ he]
      simp [hv]
  · intro hw
    have hv : v ∈ LoggingFormats := by
      by_contra hv
      obtain ⟨e, he⟩ := herr hv
      rw [configSet_of_args_error _ _ _ _ he] at hw
      cases hw
    rw [configSet_of_args_ok _ _ _ (hok hv)] at hw ⊢
    simp only [List.headD, List.drop] at hw ⊢
    by_cases hno : goEqStr (getVal st.store "logging.format") v = true
    · rw [runE_noop _ _ _ _ hno] at hw
      cases hw
    · rw [Bool.not_eq_true] at hno
      rw [runE_format _ _ _ hno]
      simp [writeConfig]

theorem set_logging_format_spec_witness :
    (configSet none loggingState ["logging.format", "json"]).st.logger.formatter
      = Formatter.json :=
  (set_logging_format_spec loggingState "json" (by decide)).2 (by decide)

/-- C7: when persisting fails after a non-no-op `set` has mutated the
in-memory store, `set` returns the PersistenceError
"Failed to write updated configuration" and the mutation is not rolled back:
the in-memory store holds the new value (coerced boolean for boolean-typed
keys, the literal string otherwise) while the backing file is unchanged. -/
theorem set_persist_failure (w : String) (st : State) (key v : String)
    (hval : configSetArgs st [key, v] = .ok ())
    (hw : (configSet (some w) st [key, v]).wrote = true) :
    (configSet (some w) st [key, v]).res
        = .error ⟨"Failed to write updated configuration", w⟩
    ∧ (configSet (some w) st [key, v]).st.file = st.file
    ∧ getVal (configSet (some w) st [key, v]).st.store key
        = some (if key ∈ BoolConfigFields then
                  .vbool ((strconvParseBool v).getD false)
                else .vstr v) := by
  rw [configSet_of_args_ok _ _ _ hval] at hw ⊢
  simp only [List.headD, List.drop] at hw ⊢
  rw [configSetArgs_ok_iff] at hval
  by_cases hno : goEqStr (getVal st.store key) v = true
  · rw [runE_noop _ _ _ _ hno] at hw
    cases hw
  · rw [Bool.not_eq_true] at hno
    by_cases hb : key ∈ BoolConfigFields
    · rw [runE_bool _ _ _ _ hno hb]
      simp [writeConfig, getVal_setVal, hb]
    · by_cases ha1 : key = "logging.level"
      · subst ha1
        obtain ⟨lvl, hlvl⟩ := parseLevel_of_mem v (hval.2.1 rfl)
        rw [runE_level _ _ _ lvl hno hlvl]
        simp [writeConfig, getVal_setVal, hb]
      · by_cases ha2 : key = "logging.format"
        · subst ha2
          rw [runE_format _ _ _ hno]
          simp [writeConfig, getVal_setVal, hb]
        · rw [runE_plain _ _ _ _ hno ha1 ha2 hb]
          simp [writeConfig, getVal_setVal, hb]

theorem set_persist_failure_witness :
    (configSet (some "disk full") loggingState ["logging.level", "debug"]).res
        = .error ⟨"Failed to write updated configuration", "disk full"⟩
    ∧ (configSet (some "disk full") loggingState ["logging.level", "debug"]).st.file
        = loggingState.file
    ∧ getVal (configSet (some "disk full") loggingState
        ["logging.level", "debug"]).st.store "logging.level"
        = some (if "logging.level" ∈ BoolConfigFields then
                  .vbool ((strconvParseBool "debug").getD false)
                else .vstr "debug") :=
  set_persist_failure "disk full" loggingState "logging.level" "debug" (by decide) (by decide)

/-- C8: in the apply phase of `set("logging.level", v)` with `v` accepted by
validation, parsing `v` into a logrus level always succeeds, so the
InvalidArguments parse-failure branch of the apply phase is unreachable: no
error produced after validation carries the InvalidArguments message. -/
theorem level_parse_total_post_validation (writeErr : Option String) (st : State) (v : String)
    (hk : "logging.level" ∈ allKeys st) (hv : v ∈ LoggingLevels) :
    (logrusParseLevel v).isSome = true
    ∧ ∀ e, (configSet writeErr st ["logging.level", v]).res = .error e →
        e.msg ≠ "Invalid command arguments" := by
  obtain ⟨lvl, hlvl⟩ := parseLevel_of_mem v hv
  refine ⟨by rw [hlvl]; rfl, ?_⟩
  intro e he hmsg
  have hok : configSetArgs st ["logging.level", v] = .ok () := by
    rw [configSetArgs_ok_iff]
    exact ⟨hk, fun _ => hv, fun h => absurd h (by decide), fun h => absurd h (by decide)⟩
  rw [configSet_of_args_ok _ _ _ hok] at he
  simp only [List.headD, List.drop] at he
  by_cases hno : goEqStr (getVal st.store "logging.level") v = true
  · rw [runE_noop _ _ _ _ hno] at he
    cases he
  · rw [Bool.not_eq_true] at hno
    rw [runE_level _ _ _ lvl hno hlvl] at he
    have := writeConfig_error_msg _ _ _ he
    rw [hmsg] at this
    exact absurd this (by decide)

theorem level_parse_total_post_validation_witness :
    (logrusParseLevel "trace").isSome = true :=
  (level_parse_total_post_validation none loggingState "trace" (by decide) (by decide)).1

/-- C9 counterexample: at a concrete read failure the error context is the
capitalized "Failed to read configuration file", not the claimed lowercase
"failed to read configuration file"; and on a concrete successful read the
emitted output is the file bytes wrapped in a leading and a trailing newline,
not exactly the raw bytes. -/
theorem print_cex :
    (configPrint (.error "open /cfg: no such file") printState).1
        = .error ⟨"Failed to read configuration file", "open /cfg: no such file"⟩
    ∧ ("Failed to read configuration file" ≠ "failed to read configuration file")
    ∧ (configPrint (.ok "abc") printState).1 = .ok "\nabc\n"
    ∧ ("\nabc\n" ≠ "abc") :=
  ⟨rfl, by decide, rfl, by decide⟩

/-- C9 (amended): `print` with a readable backing file emits the file's raw
bytes wrapped in one leading and one trailing newline and succeeds with no
state change; with an unreadable backing file it fails with the message
"Failed to read configuration file" (capitalized) carrying the underlying
cause, with no state change. -/
theorem print_spec (fileData : Except String String) (st : State) :
    (∀ d, fileData = .ok d →
      configPrint fileData st = (.ok ("\n" ++ d ++ "\n"), st))
    ∧ ∀ e, fileData = .error e →
      configPrint fileData st = (.error ⟨"Failed to read configuration file", e⟩, st) := by
  constructor <;> rintro x rfl <;> rfl

theorem print_spec_witness :
    configPrint (.ok "logging:\n  level: info") printState
      = (.ok ("\n" ++ "logging:\n  level: info" ++ "\n"), printState) :=
  (print_spec (.ok "logging:\n  level: info") printState).1 "logging:\n  level: info" rfl

/-- C10: when `set` on `logging.level` or `logging.format` takes the no-op
short-circuit because the stored value already equals the argument, the
Logger Handle is not touched — level and formatter keep their prior values
even when they differ from the argument — and nothing is written. -/
theorem noop_skips_logger_sync (writeErr : Option String) (st : State) (key v : String)
    (_hkey : key = "logging.level" ∨ key = "logging.format")
    (hval : configSetArgs st [key, v] = .ok ())
    (hv : getVal st.store key = some (.vstr v)) :
    (configSet writeErr st [key, v]).st.logger = st.logger
    ∧ (configSet writeErr st [key, v]).res = .ok ()
    ∧ (configSet writeErr st [key, v]).wrote = false := by
  rw [configSet_of_args_ok _ _ _ hval]
  simp only [List.headD, List.drop]
  rw [runE_noop _ _ _ _ (by simp [goEqStr, hv])]
  exact ⟨rfl, rfl, rfl⟩

theorem noop_skips_logger_sync_witness :
    (configSet none staleLoggerState ["logging.level", "debug"]).st.logger
        = Logger.mk .info .text
    ∧ (configSet none staleLoggerState ["logging.level", "debug"]).res = .ok ()
    ∧ (configSet none staleLoggerState ["logging.level", "debug"]).wrote = false :=
  noop_skips_logger_sync none staleLoggerState "logging.level" "debug"
    (Or.inl rfl) (by decide) (by decide)

end ConfigCmd
